import Mathlib

set_option linter.unusedVariables false
set_option maxRecDepth 8000

/-!
Shallow embedding of the oxc concurrent lint pipeline.

Part 1 embeds the diagnostic aggregation service
(crates/oxc_diagnostics/src/service.rs): severity classification,
the warning/error counters, quiet mode, the max-warnings threshold and
the minified-output guard of `DiagnosticService::run`.

Part 2 embeds the lint runtime (crates/oxc_linter/src/service.rs): the
per-path construction gate (`init_cache_state` / `update_cache_state`)
and the control flow of `Runtime::process_source`.
-/

/-- Diagnostic severity (miette's scale: advice, warning, error). -/
inductive Severity
  | Advice
  | Warning
  | Error
deriving DecidableEq

/-- A diagnostic as the aggregator receives it: an optional severity and
the text the graphical report handler renders for it. The handler
(`GraphicalReportHandler::render_report`) is external to the embedded
slice, so each diagnostic carries its rendering as data. -/
structure Diagnostic where
  severity : Option Severity
  rendered : String
deriving DecidableEq

/-- Split a character sequence at newline characters (the behaviour of
`str::lines` on the rendered report; the final empty segment a trailing
newline produces is harmless for the length guard below). -/
def linesChars : List Char → List (List Char)
  | [] => [[]]
  | c :: cs =>
    let rest := linesChars cs
    if c = '\n' then [] :: rest
    else
      match rest with
      | [] => [[c]]
      | l :: ls => (c :: l) :: ls

/-- The lines of a rendered report, `err.lines()`. -/
def linesOf (s : String) : List (List Char) :=
  linesChars s.data

/-- The length guard `err.lines().any(|line| line.len() >= 400)`. -/
def hasLongLine (s : String) : Bool :=
  (linesOf s).any fun line => decide (400 ≤ line.length)

/-- Modelled from the spec: the "file appears minified" notice substituted
for a batch whose rendering trips the length guard; the exact Debug text
of `MinifiedFileError` lives outside the embedded sources, only its role
as a single per-file notice matters here. -/
def minifiedNotice (path : String) : String :=
  "MinifiedFileError " ++ path

/-- `severity == Some(Severity::Warning)`. -/
def isWarningOf (d : Diagnostic) : Bool :=
  d.severity == some Severity.Warning

/-- `severity.is_none() || severity == Some(Severity::Error)`. -/
def isErrorOf (d : Diagnostic) : Bool :=
  d.severity.isNone || d.severity == some Severity.Error

/-- The `DiagnosticService` state: configuration plus the two atomic
counters (the atomics are modelled as plain naturals since the embedded
run loop is the single writer). -/
structure DiagnosticService where
  quiet : Bool
  max_warnings : Option Nat
  warnings_count : Nat
  errors_count : Nat
deriving DecidableEq

/-- `Default for DiagnosticService`. -/
def DiagnosticService.default : DiagnosticService :=
  { quiet := false, max_warnings := none, warnings_count := 0, errors_count := 0 }

/-- `DiagnosticService::with_quiet`. -/
def DiagnosticService.with_quiet (s : DiagnosticService) (yes : Bool) : DiagnosticService :=
  { s with quiet := yes }

/-- `DiagnosticService::with_max_warnings`. -/
def DiagnosticService.with_max_warnings (s : DiagnosticService) (m : Option Nat) :
    DiagnosticService :=
  { s with max_warnings := m }

/-- `DiagnosticService::max_warnings_exceeded`:
`self.max_warnings.map_or(false, |m| self.warnings_count() > m)`. -/
def DiagnosticService.max_warnings_exceeded (s : DiagnosticService) : Bool :=
  match s.max_warnings with
  | none => false
  | some m => decide (m < s.warnings_count)

/-- The counter updates of `run`'s per-diagnostic block (lines 97-103):
a warning increments `warnings_count`, an error increments `errors_count`,
anything else (advice severity) touches neither counter. -/
def countDiagnostic (s : DiagnosticService) (d : Diagnostic) : DiagnosticService :=
  if isWarningOf d || isErrorOf d then
    let s1 := if isWarningOf d then { s with warnings_count := s.warnings_count + 1 } else s
    if isErrorOf d then { s1 with errors_count := s1.errors_count + 1 } else s1
  else s

/-- The max-warnings rendering suppression test of `run` (lines 110-114):
after counting the current diagnostic, rendering is skipped when the
running warning count exceeds the configured threshold. -/
def suppressByMaxWarnings (s : DiagnosticService) : Bool :=
  match s.max_warnings with
  | none => false
  | some m => decide (m < s.warnings_count)

/-- The body of `run`'s loop over one batch's diagnostics, threading the
service counters and the accumulated `output` string. On the minified
guard the accumulated output is discarded, replaced by the notice, and the
loop breaks (remaining diagnostics are not visited). -/
def runBatchAux (path : String) :
    DiagnosticService → String → List Diagnostic → DiagnosticService × String
  | s, output, [] => (s, output)
  | s, output, d :: rest =>
    if (isWarningOf d || isErrorOf d) && (countDiagnostic s d).quiet then
      runBatchAux path (countDiagnostic s d) output rest
    else if (isWarningOf d || isErrorOf d) && suppressByMaxWarnings (countDiagnostic s d) then
      runBatchAux path (countDiagnostic s d) output rest
    else if hasLongLine d.rendered then
      (countDiagnostic s d, minifiedNotice path)
    else
      runBatchAux path (countDiagnostic s d) (output ++ d.rendered) rest

/-- `DiagnosticService::run`: drain the channel of `(path, diagnostics)`
batches; each batch contributes one `write_all` with its accumulated
output. The returned list holds the per-batch written strings in order. -/
def DiagnosticService.run (s : DiagnosticService) :
    List (String × List Diagnostic) → DiagnosticService × List String
  | [] => (s, [])
  | (path, diagnostics) :: more =>
    (((runBatchAux path s "" diagnostics).1.run more).1,
     (runBatchAux path s "" diagnostics).2 :: ((runBatchAux path s "" diagnostics).1.run more).2)

/-- Concatenation of a list of written strings (total rendered output). -/
def concatAll : List String → String
  | [] => ""
  | x :: rest => x ++ concatAll rest

/-!
Part 2: the lint runtime of crates/oxc_linter/src/service.rs.

The per-path construction gate is `CacheStateEntry` together with
`initCacheStateStep` (the body of `Runtime::init_cache_state` after its
`wait_while` call returns) and `updateCacheStateStep`
(`Runtime::update_cache_state`). `gateRun` replays a sequence of those
operations on one path's gate entry, with `none` standing for a task
blocked forever in `wait_while`.
-/

/-- `CacheStateEntry` of the construction gate. -/
inductive CacheStateEntry
  | ReadyToConstruct
  | PendingStore (n : Nat)
deriving DecidableEq

/-- The predicate `matches!(*state, CacheStateEntry::PendingStore(_))`
that `init_cache_state`'s condition-variable wait loops on. -/
def isPendingStore : CacheStateEntry → Bool
  | CacheStateEntry.PendingStore _ => true
  | CacheStateEntry.ReadyToConstruct => false

/-- The body of `Runtime::init_cache_state` after `wait_while` returns:
`state` is the observed gate state (which `wait_while` guarantees is not
`PendingStore`), `cached` is whether `module_map.get(path)` found an
entry. Returns the new gate state and whether `notify_one` fired. -/
def initCacheStateStep (state : CacheStateEntry) (cached : Bool) : CacheStateEntry × Bool :=
  let state1 :=
    if !cached then
      CacheStateEntry.PendingStore
        ((match state with
          | CacheStateEntry.PendingStore i => i
          | _ => 0) + 1)
    else state
  (state1, state1 == CacheStateEntry.ReadyToConstruct)

/-- `Runtime::update_cache_state`: decrement a pending count, returning
to `ReadyToConstruct` (and firing `notify_one`, the second component)
when it reaches zero. -/
def updateCacheStateStep (state : CacheStateEntry) : CacheStateEntry × Bool :=
  match state with
  | CacheStateEntry.PendingStore i =>
    let n := i - 1
    if n == 0 then (CacheStateEntry.ReadyToConstruct, true)
    else (CacheStateEntry.PendingStore n, false)
  | s => (s, false)

/-- One operation on a single path's gate entry: a task entering
`init_cache_state` (with the cache-lookup outcome it will observe), or a
task running `update_cache_state`. -/
inductive GateOp
  | init (cached : Bool)
  | update
deriving DecidableEq

/-- Replay a sequence of gate operations on one path's entry. An `init`
arriving while the state is `PendingStore` blocks in `wait_while`; with
no further operation able to run ahead of it in this serialized replay,
the replay yields `none` (the task never unblocks). -/
def gateRun : CacheStateEntry → List GateOp → Option CacheStateEntry
  | s, [] => some s
  | s, GateOp.init cached :: ops =>
    if isPendingStore s then none
    else gateRun (initCacheStateStep s cached).1 ops
  | s, GateOp.update :: ops => gateRun (updateCacheStateStep s).1 ops

/-- A file path as a list of components
(`path.components()`; `Path::strip_prefix` removes a component prefix). -/
abbrev FilePath' := List String

/-- A lint message wrapping one diagnostic error. -/
structure Message where
  error : String
deriving DecidableEq

/-- `Message::new` (the span hint is irrelevant to the embedded claims). -/
def Message.new (err : String) : Message :=
  { error := err }

/-- Modelled from the spec: the module descriptor produced by the external
module-record builder (§6) — the set of import/require specifiers found
in the file. `oxc_semantic::ModuleRecordBuilder` is outside the embedded
sources. -/
structure ModuleRecord where
  module_requests : List String
deriving DecidableEq

/-- Modelled from the spec: the output of the external Parser collaborator
(§6), `parse(text) -> (syntax tree, errors)`; only the error list steers
the embedded control flow, the tree itself is consumed by the (also
external) module-record and semantic builders. -/
structure ParserReturn where
  errors : List String
deriving DecidableEq

/-- The panic sites of `Runtime::process_source`'s import fan-out:
`path.canonicalize().unwrap()`, `canonicalized.parent().unwrap()` and
`resolution.path().strip_prefix(&cwd).unwrap()`. -/
inductive LintPanic
  | canonicalizeFailed
  | noParent
  | stripFailed (target : FilePath')
deriving DecidableEq

/-- `Path::strip_prefix(base)` on component lists: drop `base` from the
front of the path, failing when it is not a component prefix. -/
def stripBase : FilePath' → FilePath' → Option FilePath'
  | [], p => some p
  | _ :: _, [] => none
  | b :: bs, x :: xs => if b = x then stripBase bs xs else none

/-- `Path::parent` on component lists (`None` for an empty path). -/
def parentOf : FilePath' → Option FilePath'
  | [] => none
  | p => some p.dropLast

/-- Strip the current-working-directory prefix from every resolved import
target, as `resolution.path().strip_prefix(&cwd).unwrap()` does before
re-entering `process_path`; a target outside `cwd` is a panic. -/
def stripTargets (cwd : FilePath') : List FilePath' → Except LintPanic (List FilePath')
  | [] => Except.ok []
  | r :: rs =>
    match stripBase cwd r with
    | none => Except.error (LintPanic.stripFailed r)
    | some t =>
      match stripTargets cwd rs with
      | Except.error k => Except.error k
      | Except.ok ts => Except.ok (t :: ts)

/-- The observable outcome of one `Runtime::process_source` call: the
messages it returns plus the side effects it performed (module-cache
insertion, `update_cache_state`, the import targets handed to recursive
`process_path` calls, the node_modules counter delta, and whether the
semantic builder and the rule engine ran). -/
structure ProcessResult where
  messages : List Message
  insertedModule : Bool
  updatedCacheState : Bool
  resolvedTargets : List FilePath'
  nodeModulesIncrement : Nat
  ranSemantic : Bool
  ranLinter : Bool
deriving DecidableEq

/-- `Runtime::process_source`, with the external collaborators supplied as
data: `ret` is the parser output for this file, `moduleRecord` the module
descriptor the builder yields on its tree, `semanticErrors` the semantic
builder's error list, `lintMessages` the rule engine's messages,
`canonicalize` the filesystem's canonicalization, `resolve` the external
resolver, and `moduleMap` the keys currently in the resolved-module
cache. A `LintPanic` result is a worker-task panic at one of the three
`unwrap` sites of the import fan-out. -/
def processSource (ret : ParserReturn) (moduleRecord : ModuleRecord)
    (semanticErrors : List String) (lintMessages : List Message)
    (canonicalize : FilePath' → Option FilePath') (cwd : FilePath')
    (resolve : FilePath' → String → Option FilePath')
    (moduleMap : List FilePath') (path : FilePath') :
    Except LintPanic ProcessResult :=
  if ret.errors.isEmpty = false then
    Except.ok
      { messages := ret.errors.map Message.new, insertedModule := false,
        updatedCacheState := false, resolvedTargets := [],
        nodeModulesIncrement := 0, ranSemantic := false, ranLinter := false }
  else
    let moduleMap1 := path :: moduleMap
    match canonicalize path with
    | none => Except.error LintPanic.canonicalizeFailed
    | some canonicalized =>
      match parentOf canonicalized with
      | none => Except.error LintPanic.noParent
      | some dir =>
        let resolutions := moduleRecord.module_requests.filterMap fun specifier =>
          resolve dir specifier
        let uncached := resolutions.filter fun r => !(moduleMap1.contains r)
        match stripTargets cwd uncached with
        | Except.error k => Except.error k
        | Except.ok targets =>
          if path.contains "node_modules" then
            Except.ok
              { messages := [], insertedModule := true, updatedCacheState := true,
                resolvedTargets := targets, nodeModulesIncrement := 1,
                ranSemantic := false, ranLinter := false }
          else if semanticErrors.isEmpty = false then
            Except.ok
              { messages := semanticErrors.map Message.new, insertedModule := true,
                updatedCacheState := true, resolvedTargets := targets,
                nodeModulesIncrement := 0, ranSemantic := true, ranLinter := false }
          else
            Except.ok
              { messages := lintMessages, insertedModule := true,
                updatedCacheState := true, resolvedTargets := targets,
                nodeModulesIncrement := 0, ranSemantic := true, ranLinter := true }

/-- Test fixture: a short-rendered warning-severity diagnostic. -/
def warnDiag (r : String) : Diagnostic :=
  { severity := some Severity.Warning, rendered := r }

/-- Test fixture: a short-rendered error-severity diagnostic. -/
def errDiag (r : String) : Diagnostic :=
  { severity := some Severity.Error, rendered := r }

/-- Test fixture: a 400-character single rendered line, the smallest
rendering that trips the minified-output guard. -/
def longLine : String :=
  String.mk (List.replicate 400 'x')

/-- Test fixture: a severity-less diagnostic whose rendering trips the
minified-output guard. -/
def longDiag : Diagnostic :=
  { severity := none, rendered := longLine }

/-! Helper lemmas about the aggregator. -/

theorem countDiagnostic_quiet (s : DiagnosticService) (d : Diagnostic) :
    (countDiagnostic s d).quiet = s.quiet := by
  unfold countDiagnostic
  cases hw : isWarningOf d <;> cases he : isErrorOf d <;> simp

theorem countDiagnostic_max (s : DiagnosticService) (d : Diagnostic) :
    (countDiagnostic s d).max_warnings = s.max_warnings := by
  unfold countDiagnostic
  cases hw : isWarningOf d <;> cases he : isErrorOf d <;> simp

theorem countDiagnostic_warnings (s : DiagnosticService) (d : Diagnostic) :
    (countDiagnostic s d).warnings_count
      = s.warnings_count + (if isWarningOf d then 1 else 0) := by
  unfold countDiagnostic
  cases hw : isWarningOf d <;> cases he : isErrorOf d <;> simp

theorem countDiagnostic_errors (s : DiagnosticService) (d : Diagnostic) :
    (countDiagnostic s d).errors_count
      = s.errors_count + (if isErrorOf d then 1 else 0) := by
  unfold countDiagnostic
  cases hw : isWarningOf d <;> cases he : isErrorOf d <;> simp

theorem countDiagnostic_warning_eq (s : DiagnosticService) (d : Diagnostic)
    (hw : d.severity = some Severity.Warning) :
    countDiagnostic s d = { s with warnings_count := s.warnings_count + 1 } := by
  simp [countDiagnostic, isWarningOf, isErrorOf, hw]

theorem concatAll_append (a b : List String) :
    concatAll (a ++ b) = concatAll a ++ concatAll b := by
  induction a with
  | nil => simp [concatAll, String.empty_append]
  | cons x xs ih => simp [concatAll, ih, String.append_assoc]

theorem runBatchAux_all_warn (path : String) (T : Nat) (ds : List Diagnostic) :
    ∀ (s : DiagnosticService) (o : String),
      s.quiet = false → s.max_warnings = some T →
      (∀ d ∈ ds, d.severity = some Severity.Warning ∧ hasLongLine d.rendered = false) →
      (runBatchAux path s o ds).1.warnings_count = s.warnings_count + ds.length ∧
      (runBatchAux path s o ds).1.errors_count = s.errors_count ∧
      (runBatchAux path s o ds).1.quiet = s.quiet ∧
      (runBatchAux path s o ds).1.max_warnings = s.max_warnings ∧
      (runBatchAux path s o ds).2
        = o ++ concatAll ((ds.take (T - s.warnings_count)).map Diagnostic.rendered) := by
  induction ds with
  | nil =>
    intro s o hq hm hall
    refine ⟨by simp [runBatchAux], rfl, rfl, rfl, ?_⟩
    simp [runBatchAux, concatAll, String.append_empty]
  | cons d rest ih =>
    intro s o hq hm hall
    obtain ⟨hw, hshort⟩ := hall d (List.mem_cons_self d rest)
    have hrest : ∀ x ∈ rest, x.severity = some Severity.Warning ∧ hasLongLine x.rendered = false :=
      fun x hx => hall x (List.mem_cons_of_mem d hx)
    have hcd : countDiagnostic s d = { s with warnings_count := s.warnings_count + 1 } :=
      countDiagnostic_warning_eq s d hw
    have hiw : isWarningOf d = true := by simp [isWarningOf, hw]
    by_cases hsup : T < s.warnings_count + 1
    · have hstep : runBatchAux path s o (d :: rest)
          = runBatchAux path { s with warnings_count := s.warnings_count + 1 } o rest := by
        simp [runBatchAux, hcd, hiw, hq, suppressByMaxWarnings, hm, hsup]
      obtain ⟨h1, h2, h3, h4, h5⟩ :=
        ih { s with warnings_count := s.warnings_count + 1 } o hq hm hrest
      refine ⟨?_, ?_, ?_, ?_, ?_⟩
      · rw [hstep, h1]; simp; omega
      · rw [hstep]; exact h2
      · rw [hstep]; exact h3
      · rw [hstep]; exact h4
      · rw [hstep, h5]
        have e1 : T - s.warnings_count = 0 := by omega
        have e2 : T - (s.warnings_count + 1) = 0 := by omega
        simp only [e1, e2, List.take_zero, List.map_nil]
    · have hstep : runBatchAux path s o (d :: rest)
          = runBatchAux path { s with warnings_count := s.warnings_count + 1 }
              (o ++ d.rendered) rest := by
        simp [runBatchAux, hcd, hiw, hq, suppressByMaxWarnings, hm, hsup, hshort]
      obtain ⟨h1, h2, h3, h4, h5⟩ :=
        ih { s with warnings_count := s.warnings_count + 1 } (o ++ d.rendered) hq hm hrest
      refine ⟨?_, ?_, ?_, ?_, ?_⟩
      · rw [hstep, h1]; simp; omega
      · rw [hstep]; exact h2
      · rw [hstep]; exact h3
      · rw [hstep]; exact h4
      · rw [hstep, h5]
        have e1 : T - s.warnings_count = (T - (s.warnings_count + 1)) + 1 := by omega
        rw [e1, List.take_succ_cons]
        simp [concatAll, String.append_assoc]

theorem run_all_warn (T : Nat) (batches : List (String × List Diagnostic)) :
    ∀ (s : DiagnosticService),
      s.quiet = false → s.max_warnings = some T →
      (∀ b ∈ batches, ∀ d ∈ b.2,
        d.severity = some Severity.Warning ∧ hasLongLine d.rendered = false) →
      (s.run batches).1.warnings_count
          = s.warnings_count + ((batches.map Prod.snd).flatten).length ∧
      (s.run batches).1.errors_count = s.errors_count ∧
      (s.run batches).1.quiet = s.quiet ∧
      (s.run batches).1.max_warnings = s.max_warnings ∧
      concatAll (s.run batches).2
        = concatAll ((((batches.map Prod.snd).flatten).take (T - s.warnings_count)).map
            Diagnostic.rendered) := by
  induction batches with
  | nil =>
    intro s hq hm hall
    exact ⟨by simp [DiagnosticService.run], rfl, rfl, rfl, by simp [DiagnosticService.run, concatAll]⟩
  | cons b more ih =>
    obtain ⟨path, ds⟩ := b
    intro s hq hm hall
    have hds : ∀ d ∈ ds, d.severity = some Severity.Warning ∧ hasLongLine d.rendered = false :=
      fun d hd => hall (path, ds) (List.mem_cons_self _ _) d hd
    have hmore : ∀ b ∈ more, ∀ d ∈ b.2,
        d.severity = some Severity.Warning ∧ hasLongLine d.rendered = false :=
      fun b hb => hall b (List.mem_cons_of_mem _ hb)
    obtain ⟨w1, e1, q1, m1, o1⟩ := runBatchAux_all_warn path T ds s "" hq hm hds
    obtain ⟨w2, e2, q2, m2, o2⟩ :=
      ih (runBatchAux path s "" ds).1 (q1.trans hq) (m1.trans hm) hmore
    refine ⟨?_, ?_, ?_, ?_, ?_⟩
    · show ((runBatchAux path s "" ds).1.run more).1.warnings_count = _
      rw [w2, w1]
      simp
      omega
    · show ((runBatchAux path s "" ds).1.run more).1.errors_count = _
      rw [e2, e1]
    · show ((runBatchAux path s "" ds).1.run more).1.quiet = _
      rw [q2, q1]
    · show ((runBatchAux path s "" ds).1.run more).1.max_warnings = _
      rw [m2, m1]
    · show concatAll ((runBatchAux path s "" ds).2 :: ((runBatchAux path s "" ds).1.run more).2) = _
      show (runBatchAux path s "" ds).2 ++ concatAll ((runBatchAux path s "" ds).1.run more).2 = _
      rw [o2, o1, w1, String.empty_append]
      have hjoin : ((((path, ds) :: more).map Prod.snd).flatten) = ds ++ (more.map Prod.snd).flatten := by
        simp
      rw [hjoin, List.take_append_eq_append_take, List.map_append, concatAll_append]
      have e3 : T - s.warnings_count - ds.length = T - (s.warnings_count + ds.length) := by
        omega
      rw [e3]

theorem runBatchAux_minified (path : String) (ds : List Diagnostic) :
    ∀ (s : DiagnosticService) (o : String),
      s.quiet = false → s.max_warnings = none →
      (∃ d ∈ ds, hasLongLine d.rendered = true) →
      (runBatchAux path s o ds).2 = minifiedNotice path := by
  induction ds with
  | nil =>
    intro s o hq hm h
    obtain ⟨d, hd, _⟩ := h
    exact absurd hd (List.not_mem_nil d)
  | cons d rest ih =>
    intro s o hq hm h
    have hq1 : (countDiagnostic s d).quiet = false := (countDiagnostic_quiet s d).trans hq
    have hm1 : (countDiagnostic s d).max_warnings = none := (countDiagnostic_max s d).trans hm
    by_cases hl : hasLongLine d.rendered = true
    · simp [runBatchAux, hq1, hm1, suppressByMaxWarnings, hl]
    · have hl2 : hasLongLine d.rendered = false := by
        cases hend : hasLongLine d.rendered
        · rfl
        · exact absurd hend hl
      have hrest : ∃ x ∈ rest, hasLongLine x.rendered = true := by
        obtain ⟨x, hx, hlx⟩ := h
        rcases List.mem_cons.mp hx with h1 | h1
        · exact absurd (h1 ▸ hlx) hl
        · exact ⟨x, h1, hlx⟩
      have hstep : runBatchAux path s o (d :: rest)
          = runBatchAux path (countDiagnostic s d) (o ++ d.rendered) rest := by
        simp [runBatchAux, hq1, hm1, suppressByMaxWarnings, hl2]
      rw [hstep]
      exact ih (countDiagnostic s d) (o ++ d.rendered) hq1 hm1 hrest

theorem runBatchAux_break_after (path : String) (pre : List Diagnostic) :
    ∀ (s : DiagnosticService) (o : String) (d : Diagnostic) (post : List Diagnostic),
      s.quiet = false → s.max_warnings = none →
      (∀ x ∈ pre, hasLongLine x.rendered = false) →
      hasLongLine d.rendered = true →
      runBatchAux path s o (pre ++ d :: post)
        = (List.foldl countDiagnostic s (pre ++ [d]), minifiedNotice path) := by
  induction pre with
  | nil =>
    intro s o d post hq hm hpre hd
    have hq1 : (countDiagnostic s d).quiet = false := (countDiagnostic_quiet s d).trans hq
    have hm1 : (countDiagnostic s d).max_warnings = none := (countDiagnostic_max s d).trans hm
    simp [runBatchAux, hq1, hm1, suppressByMaxWarnings, hd]
  | cons x pre ih =>
    intro s o d post hq hm hpre hd
    have hx : hasLongLine x.rendered = false := hpre x (List.mem_cons_self _ _)
    have hq1 : (countDiagnostic s x).quiet = false := (countDiagnostic_quiet s x).trans hq
    have hm1 : (countDiagnostic s x).max_warnings = none := (countDiagnostic_max s x).trans hm
    have hstep : runBatchAux path s o ((x :: pre) ++ d :: post)
        = runBatchAux path (countDiagnostic s x) (o ++ x.rendered) (pre ++ d :: post) := by
      simp [runBatchAux, hq1, hm1, suppressByMaxWarnings, hx]
    rw [hstep,
      ih (countDiagnostic s x) (o ++ x.rendered) d post hq1 hm1
        (fun y hy => hpre y (List.mem_cons_of_mem _ hy)) hd]
    simp [List.foldl_cons]

theorem foldl_count_warnings (ds : List Diagnostic) :
    ∀ s : DiagnosticService,
      (List.foldl countDiagnostic s ds).warnings_count
        = s.warnings_count + ds.countP isWarningOf := by
  induction ds with
  | nil => intro s; simp
  | cons d rest ih =>
    intro s
    rw [List.foldl_cons, ih, countDiagnostic_warnings, List.countP_cons]
    by_cases h : isWarningOf d = true <;> simp [h] <;> omega

theorem foldl_count_errors (ds : List Diagnostic) :
    ∀ s : DiagnosticService,
      (List.foldl countDiagnostic s ds).errors_count
        = s.errors_count + ds.countP isErrorOf := by
  induction ds with
  | nil => intro s; simp
  | cons d rest ih =>
    intro s
    rw [List.foldl_cons, ih, countDiagnostic_errors, List.countP_cons]
    by_cases h : isErrorOf d = true <;> simp [h] <;> omega

/-! Helper lemmas about the construction gate and the file processor. -/

theorem gateRun_inv (ops : List GateOp) :
    ∀ s : CacheStateEntry,
      (s = CacheStateEntry.ReadyToConstruct ∨ s = CacheStateEntry.PendingStore 1) →
      ∀ s1, gateRun s ops = some s1 →
        s1 = CacheStateEntry.ReadyToConstruct ∨ s1 = CacheStateEntry.PendingStore 1 := by
  induction ops with
  | nil =>
    intro s hs s1 h
    simp [gateRun] at h
    exact h ▸ hs
  | cons op rest ih =>
    intro s hs s1 h
    cases op with
    | init cached =>
      rcases hs with h0 | h0 <;> subst h0
      · rw [gateRun] at h
        simp only [isPendingStore, if_false, Bool.false_eq_true, reduceIte] at h
        cases cached
        · exact ih _ (Or.inr rfl) s1 h
        · exact ih _ (Or.inl rfl) s1 h
      · simp [gateRun, isPendingStore] at h
    | update =>
      rcases hs with h0 | h0 <;> subst h0
      · exact ih _ (Or.inl rfl) s1 (by simpa [gateRun, updateCacheStateStep] using h)
      · exact ih _ (Or.inl rfl) s1 (by simpa [gateRun, updateCacheStateStep] using h)

theorem processSource_parse_err (ret : ParserReturn) (moduleRecord : ModuleRecord)
    (semanticErrors : List String) (lintMessages : List Message)
    (canonicalize : FilePath' → Option FilePath') (cwd : FilePath')
    (resolve : FilePath' → String → Option FilePath')
    (moduleMap : List FilePath') (path : FilePath')
    (h : ret.errors ≠ []) :
    processSource ret moduleRecord semanticErrors lintMessages canonicalize cwd
        resolve moduleMap path
      = Except.ok
          { messages := ret.errors.map Message.new, insertedModule := false,
            updatedCacheState := false, resolvedTargets := [],
            nodeModulesIncrement := 0, ranSemantic := false, ranLinter := false } := by
  have hne : ret.errors.isEmpty = false := by
    cases hE : ret.errors with
    | nil => exact absurd hE h
    | cons a l => rfl
  simp [processSource, hne]

theorem stripTargets_err (cwd : FilePath') (l : List FilePath')
    (h : ∃ r ∈ l, stripBase cwd r = none) :
    ∃ k, stripTargets cwd l = Except.error k := by
  induction l with
  | nil =>
    obtain ⟨r, hr, _⟩ := h
    exact absurd hr (List.not_mem_nil r)
  | cons r rs ih =>
    cases hs : stripBase cwd r with
    | none => exact ⟨LintPanic.stripFailed r, by simp [stripTargets, hs]⟩
    | some t =>
      have hrs : ∃ x ∈ rs, stripBase cwd x = none := by
        obtain ⟨x, hx, hnx⟩ := h
        rcases List.mem_cons.mp hx with h1 | h1
        · subst h1; exact absurd hnx (by simp [hs])
        · exact ⟨x, h1, hnx⟩
      obtain ⟨k, hk⟩ := ih hrs
      exact ⟨k, by simp [stripTargets, hs, hk]⟩

theorem runBatchAux_config (path : String) (ds : List Diagnostic) :
    ∀ (s : DiagnosticService) (o : String),
      (runBatchAux path s o ds).1.quiet = s.quiet ∧
      (runBatchAux path s o ds).1.max_warnings = s.max_warnings := by
  induction ds with
  | nil => intro s o; exact ⟨rfl, rfl⟩
  | cons d rest ih =>
    intro s o
    rw [runBatchAux]
    split
    · exact ⟨(ih _ _).1.trans (countDiagnostic_quiet s d),
             (ih _ _).2.trans (countDiagnostic_max s d)⟩
    · split
      · exact ⟨(ih _ _).1.trans (countDiagnostic_quiet s d),
               (ih _ _).2.trans (countDiagnostic_max s d)⟩
      · split
        · exact ⟨countDiagnostic_quiet s d, countDiagnostic_max s d⟩
        · exact ⟨(ih _ _).1.trans (countDiagnostic_quiet s d),
                 (ih _ _).2.trans (countDiagnostic_max s d)⟩

theorem run_config (batches : List (String × List Diagnostic)) :
    ∀ s : DiagnosticService,
      (s.run batches).1.quiet = s.quiet ∧
      (s.run batches).1.max_warnings = s.max_warnings := by
  induction batches with
  | nil => intro s; exact ⟨rfl, rfl⟩
  | cons b more ih =>
    obtain ⟨path, ds⟩ := b
    intro s
    exact ⟨(ih _).1.trans (runBatchAux_config path ds s "").1,
           (ih _).2.trans (runBatchAux_config path ds s "").2⟩

theorem max_warnings_exceeded_some (s : DiagnosticService) (T : Nat)
    (h : s.max_warnings = some T) :
    s.max_warnings_exceeded = decide (T < s.warnings_count) := by
  unfold DiagnosticService.max_warnings_exceeded
  rw [h]

theorem max_warnings_exceeded_none (s : DiagnosticService)
    (h : s.max_warnings = none) :
    s.max_warnings_exceeded = false := by
  unfold DiagnosticService.max_warnings_exceeded
  rw [h]

/-!
The claims, settled. Each claim gets one theorem, and a witness when its
theorem carries hypotheses.
-/

/-- Claim C1: the spec states that under quiet mode error-severity
diagnostics are still rendered while warnings are only counted. The code
is the bug: its quiet branch executes `continue` before rendering for
errors as well, contradicting the source's own comment that quiet "does
not disable ALL diagnostics, only Warning diagnostics" (ESLint --quiet
semantics). At the failing input — quiet mode, one error-severity
diagnostic with a short rendering — the error is counted
(`errors_count = 1`) but the batch's written output is empty. -/
theorem quiet_mode_drops_error_rendering :
    (DiagnosticService.default.with_quiet true).run [("file.js", [errDiag "E"])]
      = ({ quiet := true, max_warnings := none, warnings_count := 0, errors_count := 1 },
         [""]) := by
  decide

/-- Claim C2: with threshold T configured (quiet off, counters fresh) and
any arrival stream made of short-rendered warning diagnostics, exactly
the first T warnings in arrival order are rendered, all W are counted
(and nothing lands in the error counter), `max_warnings_exceeded` is true
iff W > T, and with no threshold configured it is false. -/
theorem max_warnings_first_T (T : Nat) (batches : List (String × List Diagnostic))
    (hall : ∀ b ∈ batches, ∀ d ∈ b.2,
      d.severity = some Severity.Warning ∧ hasLongLine d.rendered = false) :
    ((DiagnosticService.default.with_max_warnings (some T)).run batches).1.warnings_count
        = ((batches.map Prod.snd).flatten).length ∧
    ((DiagnosticService.default.with_max_warnings (some T)).run batches).1.errors_count = 0 ∧
    concatAll ((DiagnosticService.default.with_max_warnings (some T)).run batches).2
        = concatAll ((((batches.map Prod.snd).flatten).take T).map Diagnostic.rendered) ∧
    (((DiagnosticService.default.with_max_warnings (some T)).run batches).1.max_warnings_exceeded
        = true ↔ T < ((batches.map Prod.snd).flatten).length) ∧
    (DiagnosticService.default.run batches).1.max_warnings_exceeded = false := by
  obtain ⟨w, e, q, m, o⟩ :=
    run_all_warn T batches (DiagnosticService.default.with_max_warnings (some T)) rfl rfl hall
  have hmw : ((DiagnosticService.default.with_max_warnings (some T)).run batches).1.max_warnings
      = some T := m
  have hnone : (DiagnosticService.default.run batches).1.max_warnings = none :=
    (run_config batches DiagnosticService.default).2
  refine ⟨by simpa [DiagnosticService.default, DiagnosticService.with_max_warnings] using w,
    by simpa [DiagnosticService.default, DiagnosticService.with_max_warnings] using e,
    by simpa [DiagnosticService.default, DiagnosticService.with_max_warnings] using o, ?_, ?_⟩
  · rw [max_warnings_exceeded_some _ T hmw, w]
    simp [DiagnosticService.default, DiagnosticService.with_max_warnings]
  · rw [max_warnings_exceeded_none _ hnone]

/-- Witness for C2 at T = 1 with three warnings across two batches: all
three are counted, only the first is rendered, the threshold is exceeded,
and without a threshold the flag stays false. -/
theorem max_warnings_first_T_witness :
    (∀ b ∈ [("a.js", [warnDiag "ra", warnDiag "rb"]), ("b.js", [warnDiag "rc"])],
      ∀ d ∈ b.2, d.severity = some Severity.Warning ∧ hasLongLine d.rendered = false) ∧
    (((DiagnosticService.default.with_max_warnings (some 1)).run
        [("a.js", [warnDiag "ra", warnDiag "rb"]), ("b.js", [warnDiag "rc"])]).1.warnings_count
        = (([("a.js", [warnDiag "ra", warnDiag "rb"]),
            ("b.js", [warnDiag "rc"])].map Prod.snd).flatten).length ∧
     ((DiagnosticService.default.with_max_warnings (some 1)).run
        [("a.js", [warnDiag "ra", warnDiag "rb"]), ("b.js", [warnDiag "rc"])]).1.errors_count = 0 ∧
     concatAll ((DiagnosticService.default.with_max_warnings (some 1)).run
        [("a.js", [warnDiag "ra", warnDiag "rb"]), ("b.js", [warnDiag "rc"])]).2
        = concatAll (((([("a.js", [warnDiag "ra", warnDiag "rb"]),
            ("b.js", [warnDiag "rc"])].map Prod.snd).flatten).take 1).map Diagnostic.rendered) ∧
     (((DiagnosticService.default.with_max_warnings (some 1)).run
        [("a.js", [warnDiag "ra", warnDiag "rb"]), ("b.js", [warnDiag "rc"])]).1.max_warnings_exceeded
        = true ↔ 1 < (([("a.js", [warnDiag "ra", warnDiag "rb"]),
            ("b.js", [warnDiag "rc"])].map Prod.snd).flatten).length) ∧
     (DiagnosticService.default.run
        [("a.js", [warnDiag "ra", warnDiag "rb"]), ("b.js", [warnDiag "rc"])]).1.max_warnings_exceeded
        = false) :=
  ⟨by decide,
   max_warnings_first_T 1 [("a.js", [warnDiag "ra", warnDiag "rb"]), ("b.js", [warnDiag "rc"])]
     (by decide)⟩

/-- Claim C6 counterexample: a diagnostic carrying `Advice` severity —
"other than Warning" in the claim's words — increments neither counter
(it is rendered, but `errors_count` stays 0 where the claim demands 1).
Only a missing severity or `Error` is counted as an error. -/
theorem advice_severity_not_counted :
    (DiagnosticService.default.run
        [("f.js", [{ severity := some Severity.Advice, rendered := "a" }])]).1.errors_count = 0 ∧
    (DiagnosticService.default.run
        [("f.js", [{ severity := some Severity.Advice, rendered := "a" }])]).1.warnings_count = 0 ∧
    (DiagnosticService.default.run
        [("f.js", [{ severity := some Severity.Advice, rendered := "a" }])]).2 = ["a"] := by
  decide

/-- Claim C6 (amended): a Warning-severity diagnostic increments the
warnings counter; a diagnostic with unspecified severity or Error
severity increments the errors counter; a diagnostic of any other
severity (Advice) increments neither. -/
theorem severity_counting (path : String) (d : Diagnostic) :
    (DiagnosticService.default.run [(path, [d])]).1.warnings_count
        = (if d.severity = some Severity.Warning then 1 else 0) ∧
    (DiagnosticService.default.run [(path, [d])]).1.errors_count
        = (if d.severity = none ∨ d.severity = some Severity.Error then 1 else 0) := by
  have hq1 : (countDiagnostic DiagnosticService.default d).quiet = false :=
    countDiagnostic_quiet _ d
  have hm1 : (countDiagnostic DiagnosticService.default d).max_warnings = none :=
    countDiagnostic_max _ d
  have h1 : (DiagnosticService.default.run [(path, [d])]).1
      = countDiagnostic DiagnosticService.default d := by
    by_cases hl : hasLongLine d.rendered = true
    · simp [DiagnosticService.run, runBatchAux, hq1, hm1, suppressByMaxWarnings, hl]
    · have hl2 : hasLongLine d.rendered = false := by
        cases hend : hasLongLine d.rendered
        · rfl
        · exact absurd hend hl
      simp [DiagnosticService.run, runBatchAux, hq1, hm1, suppressByMaxWarnings, hl2]
  refine ⟨?_, ?_⟩
  · rw [h1, countDiagnostic_warnings]
    rcases hsev : d.severity with _ | sev
    · simp [isWarningOf, hsev, DiagnosticService.default]
    · cases sev <;> simp [isWarningOf, hsev, DiagnosticService.default]
  · rw [h1, countDiagnostic_errors]
    rcases hsev : d.severity with _ | sev
    · simp [isErrorOf, hsev, DiagnosticService.default]
    · cases sev <;> simp [isErrorOf, hsev, DiagnosticService.default]

/-- Claim C7: if some diagnostic of a batch renders with a line reaching
the 400-character guard, the whole batch's rendered output is discarded
and replaced by the single minified-file notice for that path, and the
consumer loop carries on with the remaining batches (the overflow is
never propagated as an error). Stated for a configuration that is not
suppressing rendering (quiet off, no threshold), so every diagnostic of
the batch reaches the render step. -/
theorem minified_guard_replaces_batch (path : String) (ds : List Diagnostic)
    (rest : List (String × List Diagnostic)) (s : DiagnosticService)
    (hq : s.quiet = false) (hm : s.max_warnings = none)
    (hlong : ∃ d ∈ ds, hasLongLine d.rendered = true) :
    (s.run ((path, ds) :: rest)).2
      = minifiedNotice path :: ((runBatchAux path s "" ds).1.run rest).2 := by
  show (runBatchAux path s "" ds).2 :: ((runBatchAux path s "" ds).1.run rest).2 = _
  rw [runBatchAux_minified path ds s "" hq hm hlong]

/-- Witness for C7: a batch holding a short warning followed by a
diagnostic with a 400-character line collapses to the notice, and the
following batch is still processed. -/
theorem minified_guard_replaces_batch_witness :
    (∃ d ∈ [warnDiag "w", longDiag], hasLongLine d.rendered = true) ∧
    (DiagnosticService.default.run
        [("min.js", [warnDiag "w", longDiag]), ("g.js", [warnDiag "z"])]).2
      = minifiedNotice "min.js"
          :: ((runBatchAux "min.js" DiagnosticService.default ""
                [warnDiag "w", longDiag]).1.run [("g.js", [warnDiag "z"])]).2 :=
  ⟨by decide,
   minified_guard_replaces_batch "min.js" [warnDiag "w", longDiag]
     [("g.js", [warnDiag "z"])] DiagnosticService.default rfl rfl (by decide)⟩

/-- Claim C9: once the minified guard trips, the remaining diagnostics of
the batch are neither rendered nor classified nor counted: the final
counters equal the counts over the prefix up to and including the
guard-tripping diagnostic, and the batch's written output is exactly the
notice. Stated for the default configuration (quiet off, no threshold),
under which every visited diagnostic reaches the render step. -/
theorem minified_guard_stops_counting (path : String)
    (pre post : List Diagnostic) (d : Diagnostic)
    (hpre : ∀ x ∈ pre, hasLongLine x.rendered = false)
    (hd : hasLongLine d.rendered = true) :
    (DiagnosticService.default.run [(path, pre ++ d :: post)]).1.warnings_count
        = (pre ++ [d]).countP isWarningOf ∧
    (DiagnosticService.default.run [(path, pre ++ d :: post)]).1.errors_count
        = (pre ++ [d]).countP isErrorOf ∧
    (DiagnosticService.default.run [(path, pre ++ d :: post)]).2 = [minifiedNotice path] := by
  have hb := runBatchAux_break_after path pre DiagnosticService.default "" d post rfl rfl hpre hd
  refine ⟨?_, ?_, ?_⟩
  · show ((runBatchAux path DiagnosticService.default "" (pre ++ d :: post)).1.run []).1.warnings_count = _
    rw [hb]
    show (List.foldl countDiagnostic DiagnosticService.default (pre ++ [d])).warnings_count = _
    rw [foldl_count_warnings]
    simp [DiagnosticService.default]
  · show ((runBatchAux path DiagnosticService.default "" (pre ++ d :: post)).1.run []).1.errors_count = _
    rw [hb]
    show (List.foldl countDiagnostic DiagnosticService.default (pre ++ [d])).errors_count = _
    rw [foldl_count_errors]
    simp [DiagnosticService.default]
  · show (runBatchAux path DiagnosticService.default "" (pre ++ d :: post)).2
        :: ((runBatchAux path DiagnosticService.default "" (pre ++ d :: post)).1.run []).2 = _
    rw [hb]
    rfl

/-- Witness for C9: a short warning, then a guard-tripping severity-less
diagnostic, then a warning and an error that are never visited — final
counts are 1 warning and 1 error (the post-guard diagnostics excluded),
output is the single notice. -/
theorem minified_guard_stops_counting_witness :
    (∀ x ∈ [warnDiag "w"], hasLongLine x.rendered = false) ∧
    hasLongLine longDiag.rendered = true ∧
    ((DiagnosticService.default.run
        [("m.js", [warnDiag "w"] ++ longDiag :: [warnDiag "u", errDiag "e"])]).1.warnings_count
        = ([warnDiag "w"] ++ [longDiag]).countP isWarningOf ∧
     (DiagnosticService.default.run
        [("m.js", [warnDiag "w"] ++ longDiag :: [warnDiag "u", errDiag "e"])]).1.errors_count
        = ([warnDiag "w"] ++ [longDiag]).countP isErrorOf ∧
     (DiagnosticService.default.run
        [("m.js", [warnDiag "w"] ++ longDiag :: [warnDiag "u", errDiag "e"])]).2
        = [minifiedNotice "m.js"]) :=
  ⟨by decide, by decide,
   minified_guard_stops_counting "m.js" [warnDiag "w"] [warnDiag "u", errDiag "e"] longDiag
     (by decide) (by decide)⟩

/-- Claim C3 counterexample: a task that observed `ReadyToConstruct` with
the descriptor still absent increments the count to `PendingStore 1` but
wakes nobody — the code's `notify_one` condition tests the state *after*
the increment, so no waiter is woken, contradicting the claim that "a
waiter is woken whenever the task observed the state ReadyToConstruct". -/
theorem gate_increment_no_wake :
    initCacheStateStep CacheStateEntry.ReadyToConstruct false
      = (CacheStateEntry.PendingStore 1, false) := by
  decide

/-- Claim C3 (amended): the state observed after `wait_while` is
necessarily `ReadyToConstruct` (the wait blocks while `PendingStore`), so
when the descriptor is absent the only transition is
`ReadyToConstruct → PendingStore 1` — over any serialized sequence of
gate operations a pending count n ≥ 2 is unreachable — and `notify_one`
fires exactly when the descriptor was already present (the state after
the update is still `ReadyToConstruct`), never when the count was
incremented. -/
theorem gate_init_transitions (s : CacheStateEntry) (cached : Bool)
    (h : isPendingStore s = false) :
    s = CacheStateEntry.ReadyToConstruct ∧
    initCacheStateStep s cached
      = (if cached then CacheStateEntry.ReadyToConstruct
         else CacheStateEntry.PendingStore 1, cached) ∧
    (∀ ops s1, gateRun CacheStateEntry.ReadyToConstruct ops = some s1 →
      s1 = CacheStateEntry.ReadyToConstruct ∨ s1 = CacheStateEntry.PendingStore 1) := by
  have hs : s = CacheStateEntry.ReadyToConstruct := by
    cases s with
    | ReadyToConstruct => rfl
    | PendingStore n => simp [isPendingStore] at h
  subst hs
  refine ⟨rfl, ?_, ?_⟩
  · cases cached <;> rfl
  · intro ops s1 h1
    exact gateRun_inv ops _ (Or.inl rfl) s1 h1

/-- Witness for C3's amended statement at the observed state
`ReadyToConstruct` with the descriptor absent. -/
theorem gate_init_transitions_witness :
    isPendingStore CacheStateEntry.ReadyToConstruct = false ∧
    (CacheStateEntry.ReadyToConstruct = CacheStateEntry.ReadyToConstruct ∧
     initCacheStateStep CacheStateEntry.ReadyToConstruct false
       = (if false then CacheStateEntry.ReadyToConstruct
          else CacheStateEntry.PendingStore 1, false) ∧
     (∀ ops s1, gateRun CacheStateEntry.ReadyToConstruct ops = some s1 →
       s1 = CacheStateEntry.ReadyToConstruct ∨ s1 = CacheStateEntry.PendingStore 1)) :=
  ⟨rfl, gate_init_transitions CacheStateEntry.ReadyToConstruct false rfl⟩

/-- Claim C4: a file whose parse produced errors returns exactly those
errors as its only messages and does nothing else: no module-descriptor
insertion into the cache, no cache-state completion, no import specifier
resolved or traversed, no vendor-counter bump, no semantic analysis, no
rule execution. -/
theorem parse_errors_short_circuit (ret : ParserReturn) (moduleRecord : ModuleRecord)
    (semanticErrors : List String) (lintMessages : List Message)
    (canonicalize : FilePath' → Option FilePath') (cwd : FilePath')
    (resolve : FilePath' → String → Option FilePath')
    (moduleMap : List FilePath') (path : FilePath')
    (h : ret.errors ≠ []) :
    processSource ret moduleRecord semanticErrors lintMessages canonicalize cwd
        resolve moduleMap path
      = Except.ok
          { messages := ret.errors.map Message.new, insertedModule := false,
            updatedCacheState := false, resolvedTargets := [],
            nodeModulesIncrement := 0, ranSemantic := false, ranLinter := false } :=
  processSource_parse_err ret moduleRecord semanticErrors lintMessages canonicalize cwd
    resolve moduleMap path h

/-- Witness for C4 on a concrete file with one parse error, a resolvable
import, pending semantic errors and lint messages — none of which
surface. -/
theorem parse_errors_short_circuit_witness :
    ({ errors := ["unexpected token"] } : ParserReturn).errors ≠ [] ∧
    processSource { errors := ["unexpected token"] } { module_requests := ["./a"] }
        ["semErr"] [Message.new "lint"] (fun p => some p) []
        (fun _ _ => some ["t.js"]) [] ["src", "a.js"]
      = Except.ok
          { messages := (["unexpected token"].map Message.new), insertedModule := false,
            updatedCacheState := false, resolvedTargets := [],
            nodeModulesIncrement := 0, ranSemantic := false, ranLinter := false } :=
  ⟨by decide,
   parse_errors_short_circuit { errors := ["unexpected token"] } { module_requests := ["./a"] }
     ["semErr"] [Message.new "lint"] (fun p => some p) [] (fun _ _ => some ["t.js"]) []
     ["src", "a.js"] (by decide)⟩

/-- Claim C5 counterexample: a node_modules file whose parse fails *does*
contribute diagnostics (its parse errors), has no import edge resolved or
traversed, and does not bump the vendor counter — refuting the
unconditional claim for every processed node_modules file. -/
theorem node_modules_parse_error_cex :
    ∃ r, processSource { errors := ["e"] } { module_requests := ["./a"] } [] []
        (fun p => some p) [] (fun _ _ => none) [] ["node_modules", "x.js"]
      = Except.ok r ∧ r.messages ≠ [] ∧ r.nodeModulesIncrement = 0 ∧ r.resolvedTargets = [] :=
  ⟨{ messages := [Message.new "e"], insertedModule := false,
     updatedCacheState := false, resolvedTargets := [],
     nodeModulesIncrement := 0, ranSemantic := false, ranLinter := false },
   rfl, by decide, rfl, rfl⟩

/-- Claim C5 (amended): a node_modules file whose parse yields no errors
(and whose canonicalization, parent lookup and cwd-prefix stripping
succeed) contributes no diagnostics, still has its import edges resolved
and traversed, bumps the vendor counter by exactly one, and runs neither
semantic analysis nor the rule engine. -/
theorem node_modules_excluded (ret : ParserReturn) (moduleRecord : ModuleRecord)
    (semanticErrors : List String) (lintMessages : List Message)
    (canonicalize : FilePath' → Option FilePath') (cwd : FilePath')
    (resolve : FilePath' → String → Option FilePath')
    (moduleMap : List FilePath') (path : FilePath') (targets : List FilePath')
    (hparse : ret.errors = [])
    (hnm : path.contains "node_modules" = true)
    (c dir : FilePath') (hc : canonicalize path = some c) (hdir : parentOf c = some dir)
    (ht : stripTargets cwd
        ((moduleRecord.module_requests.filterMap fun sp => resolve dir sp).filter
          fun r => !((path :: moduleMap).contains r)) = Except.ok targets) :
    processSource ret moduleRecord semanticErrors lintMessages canonicalize cwd
        resolve moduleMap path
      = Except.ok
          { messages := [], insertedModule := true, updatedCacheState := true,
            resolvedTargets := targets, nodeModulesIncrement := 1,
            ranSemantic := false, ranLinter := false } := by
  have hif : (ret.errors.isEmpty = false) = False := by simp [hparse]
  have hcond : (path.contains "node_modules" = true) = True := by
    rw [hnm]
    exact eq_true rfl
  simp only [processSource, hif, hc, hdir, ht, hcond, if_false, if_true]

/-- Witness for C5's amended statement: a cleanly parsing node_modules
file with one import that resolves to another vendored file — no
messages, vendor counter bumped, the resolved edge traversed, semantic
analysis and rules skipped. -/
theorem node_modules_excluded_witness :
    ({ errors := [] } : ParserReturn).errors = [] ∧
    (["node_modules", "pkg", "i.js"] : FilePath').contains "node_modules" = true ∧
    processSource { errors := [] } { module_requests := ["./b"] } ["sem"] [Message.new "lint"]
        (fun p => some p) [] (fun _ _ => some ["node_modules", "pkg", "b.js"]) []
        ["node_modules", "pkg", "i.js"]
      = Except.ok
          { messages := [], insertedModule := true, updatedCacheState := true,
            resolvedTargets := [["node_modules", "pkg", "b.js"]], nodeModulesIncrement := 1,
            ranSemantic := false, ranLinter := false } :=
  ⟨rfl, by decide,
   node_modules_excluded { errors := [] } { module_requests := ["./b"] } ["sem"]
     [Message.new "lint"] (fun p => some p) []
     (fun _ _ => some ["node_modules", "pkg", "b.js"]) [] ["node_modules", "pkg", "i.js"]
     [["node_modules", "pkg", "b.js"]] rfl (by decide)
     ["node_modules", "pkg", "i.js"] ["node_modules", "pkg"] rfl rfl rfl⟩

/-- Claim C8: when parsing fails, process_source returns before the
module-cache insertion and before update_cache_state; the gate entry this
task's init_cache_state left at `PendingStore 1` is therefore never
completed, and any later init_cache_state for the same path blocks
forever in `wait_while` (its wait predicate holds and never clears). -/
theorem parse_error_gate_starves (ret : ParserReturn) (moduleRecord : ModuleRecord)
    (semanticErrors : List String) (lintMessages : List Message)
    (canonicalize : FilePath' → Option FilePath') (cwd : FilePath')
    (resolve : FilePath' → String → Option FilePath')
    (moduleMap : List FilePath') (path : FilePath')
    (h : ret.errors ≠ []) :
    (∀ r, processSource ret moduleRecord semanticErrors lintMessages canonicalize cwd
        resolve moduleMap path = Except.ok r →
      r.updatedCacheState = false ∧ r.insertedModule = false) ∧
    (initCacheStateStep CacheStateEntry.ReadyToConstruct false).1
      = CacheStateEntry.PendingStore 1 ∧
    (∀ cached ops,
      gateRun (CacheStateEntry.PendingStore 1) (GateOp.init cached :: ops) = none) := by
  refine ⟨?_, rfl, ?_⟩
  · intro r hr
    rw [processSource_parse_err ret moduleRecord semanticErrors lintMessages canonicalize cwd
      resolve moduleMap path h] at hr
    injection hr with h2
    subst h2
    exact ⟨rfl, rfl⟩
  · intro cached ops
    rfl

/-- Witness for C8 on a concrete file with one parse error. -/
theorem parse_error_gate_starves_witness :
    ({ errors := ["bad"] } : ParserReturn).errors ≠ [] ∧
    ((∀ r, processSource { errors := ["bad"] } { module_requests := [] } [] []
          (fun p => some p) [] (fun _ _ => none) [] ["src", "b.js"] = Except.ok r →
        r.updatedCacheState = false ∧ r.insertedModule = false) ∧
     (initCacheStateStep CacheStateEntry.ReadyToConstruct false).1
        = CacheStateEntry.PendingStore 1 ∧
     (∀ cached ops,
       gateRun (CacheStateEntry.PendingStore 1) (GateOp.init cached :: ops) = none)) :=
  ⟨by decide,
   parse_error_gate_starves { errors := ["bad"] } { module_requests := [] } [] []
     (fun p => some p) [] (fun _ _ => none) [] ["src", "b.js"] (by decide)⟩

/-- Claim C10: in the import fan-out the code unwraps canonicalization,
parent lookup and cwd-prefix stripping. Whenever the file's path cannot
be canonicalized, or its canonical form has no parent directory, or some
kept resolution does not lie under the current working directory, the
worker task panics: process_source yields an error outcome rather than
producing any diagnostic or dropping the offending edge. -/
theorem fanout_unwrap_panics (ret : ParserReturn) (moduleRecord : ModuleRecord)
    (semanticErrors : List String) (lintMessages : List Message)
    (canonicalize : FilePath' → Option FilePath') (cwd : FilePath')
    (resolve : FilePath' → String → Option FilePath')
    (moduleMap : List FilePath') (path : FilePath')
    (hparse : ret.errors = [])
    (h : canonicalize path = none
      ∨ (∃ c, canonicalize path = some c ∧ parentOf c = none)
      ∨ (∃ c dir, canonicalize path = some c ∧ parentOf c = some dir ∧
          ∃ r ∈ ((moduleRecord.module_requests.filterMap fun sp => resolve dir sp).filter
              fun t => !((path :: moduleMap).contains t)),
            stripBase cwd r = none)) :
    ∃ k, processSource ret moduleRecord semanticErrors lintMessages canonicalize cwd
        resolve moduleMap path = Except.error k := by
  have hif : (ret.errors.isEmpty = false) = False := by simp [hparse]
  rcases h with h | ⟨c, hc, hp⟩ | ⟨c, dir, hc, hp, hr⟩
  · exact ⟨LintPanic.canonicalizeFailed, by simp only [processSource, hif, if_false, h]⟩
  · exact ⟨LintPanic.noParent, by simp only [processSource, hif, if_false, hc, hp]⟩
  · obtain ⟨k, hk⟩ := stripTargets_err cwd _ hr
    exact ⟨k, by simp only [processSource, hif, if_false, hc, hp, hk]⟩

/-- Witness for C10: a file whose path fails to canonicalize makes the
worker panic. -/
theorem fanout_unwrap_panics_witness :
    ({ errors := [] } : ParserReturn).errors = [] ∧
    ((fun _ : FilePath' => (none : Option FilePath')) ["src", "c.js"] = none) ∧
    (∃ k, processSource { errors := [] } { module_requests := [] } [] []
        (fun _ => none) [] (fun _ _ => none) [] ["src", "c.js"] = Except.error k) :=
  ⟨rfl, rfl,
   fanout_unwrap_panics { errors := [] } { module_requests := [] } [] []
     (fun _ => none) [] (fun _ _ => none) [] ["src", "c.js"] rfl (Or.inl rfl)⟩
